import Mathlib

/-!
Verification of the GDGc-Backend profile-scraping pipeline.

This file gives a shallow embedding of the pipeline's pure core:
the CSV URL extractors (both script variants and their regexes, with
greedy backtracking semantics), the shadow-DOM-aware collectors embedded
as JS in `batch_from_csv.scrape_profile_with_name` and
`scraper.scrape_playwright`, the title dedup loops, the concurrent batch
runner of `batch_from_csv.main` (modelled with an explicit completion
order), the persistence step, and the single-record update path of
`update_single.update_profile`.  Browser I/O, page loading and exceptions
are modelled as explicit outcome values fed to the embedded functions.
-/

/-! ## String and list helpers modelling Python and JS primitives -/

/-- Python `s.strip()` and JS `s.trim()` on a character list: drop
whitespace from both ends. -/
def pyStrip (l : List Char) : List Char :=
  ((l.dropWhile Char.isWhitespace).reverse.dropWhile Char.isWhitespace).reverse

/-- Python `s.strip()` / JS `s.trim()` on strings. -/
def strip (s : String) : String := String.mk (pyStrip s.toList)

/-- JS `s.toLowerCase()` (ASCII, as applied to tag names). -/
def pyLower (s : String) : String := String.mk (s.toList.map Char.toLower)

/-- Python `s.split(sep)[0]`: the prefix of `s` before the first
occurrence of `sep` (the whole string when `sep` is absent). -/
def splitHead (sep : Char) (s : String) : String :=
  String.mk (s.toList.takeWhile (fun c => c != sep))

/-- Python substring test `needle in hay`. -/
def containsSub (needle : List Char) : List Char → Bool
  | [] => needle.isPrefixOf []
  | c :: t => needle.isPrefixOf (c :: t) || containsSub needle t

/-- The first-seen-order dedup loop (`seen` set plus an output list) that
appears verbatim in `batch_from_csv.py` lines 100-106 and in
`scraper.py` lines 99-105, generalized over the starting `seen` set. -/
def dedupAux (seen : List String) : List String → List String
  | [] => []
  | t :: ts => if t ∈ seen then dedupAux seen ts else t :: dedupAux (t :: seen) ts

/-- Deduplicate keeping the first occurrence of each string. -/
def dedupFirst (l : List String) : List String := dedupAux [] l

/-- Insert a string into a (sorted) list, keeping code-point order. -/
def insertSorted (x : String) : List String → List String
  | [] => [x]
  | y :: ys => if y < x then y :: insertSorted x ys else x :: y :: ys

/-- Python `sorted` on strings: lexicographic code-point order.
Together with `dedupFirst` this models Python's `sorted(set_of_urls)`. -/
def sortStrings (l : List String) : List String := l.foldr insertSorted []

/-- Consume a literal prefix of a character list, as a regex literal does. -/
def dropLit (lit s : List Char) : Option (List Char) :=
  if lit.isPrefixOf s then some (s.drop lit.length) else none

/-! ## The DOM model

A composed tree: element nodes carry `tagName`, `className`, `innerText`,
an optional attached shadow root and their light-DOM children.  The
collectors below call `collect` only on `document` and on shadow roots,
both of which behave as a forest of element trees (the root object itself
has no `tagName` and no `shadowRoot`, so the JS per-node checks skip it). -/

mutual
inductive DomNode where
  | element (tagName className innerText : String) (shadow : ShadowSlot) (children : DomForest)
inductive ShadowSlot where
  | noShadow
  | shadowRoot (content : DomForest)
inductive DomForest where
  | nil
  | cons (n : DomNode) (rest : DomForest)
end

/-- JS `cls.split(/\s+/).includes(c)`: membership of a class token in a
whitespace-separated class string (splitting on each whitespace character
yields the same non-empty tokens as splitting on whitespace runs). -/
def hasClass (className cls : String) : Bool :=
  ((className.toList.splitOnP Char.isWhitespace).map String.mk).contains cls

/-- The result object `{name: '', titles: []}` built by the collector JS of
`batch_from_csv.scrape_profile_with_name`. -/
structure CollectOut where
  name : String
  titles : List String
deriving DecidableEq

/-! ## The collector embedded in `batch_from_csv.scrape_profile_with_name`

The JS walks elements in pre-order; at each element it (1) captures the
trimmed text of an `h1` with class `ql-display-small` if no name is set,
(2) appends the trimmed non-empty text of a `span` with class
`ql-title-medium`, (3) recurses into an attached shadow root, taking the
sub-result's name only when no name is set and concatenating its titles;
then the walker continues into the light children. -/

/-- Step (1): the `h1.ql-display-small` check of the collector JS. -/
def nameStep (out : CollectOut) (tagName className innerText : String) : CollectOut :=
  if pyLower tagName = "h1" ∧ hasClass className "ql-display-small" ∧ out.name = "" then
    ⟨strip innerText, out.titles⟩
  else out

/-- Step (2): the `span.ql-title-medium` check of the collector JS. -/
def titleStep (out : CollectOut) (tagName className innerText : String) : CollectOut :=
  if pyLower tagName = "span" ∧ hasClass className "ql-title-medium" ∧ strip innerText ≠ "" then
    ⟨out.name, out.titles ++ [strip innerText]⟩
  else out

/-- Step (3): merging the recursive shadow sub-result, as in the JS
`if(sub.name && !out.name) out.name = sub.name; out.titles.push(...sub.titles)`. -/
def shadowMerge (out sub : CollectOut) : CollectOut :=
  ⟨if sub.name ≠ "" ∧ out.name = "" then sub.name else out.name, out.titles ++ sub.titles⟩

mutual
/-- Processing of one element node by the collector JS, in source order:
name check, title check, shadow recursion, then the light children. -/
def collectNode (out : CollectOut) (n : DomNode) : CollectOut :=
  match n with
  | .element tagName className innerText shadow children =>
    collectForest
      (collectShadow (titleStep (nameStep out tagName className innerText) tagName className innerText) shadow)
      children
termination_by structural n
/-- The `if(node.shadowRoot){ const sub = collect(node.shadowRoot); ... }` part. -/
def collectShadow (out : CollectOut) (sh : ShadowSlot) : CollectOut :=
  match sh with
  | .noShadow => out
  | .shadowRoot content => shadowMerge out (collectForest ⟨"", []⟩ content)
termination_by structural sh
/-- The tree walker loop over a forest of sibling element trees. -/
def collectForest (out : CollectOut) (f : DomForest) : CollectOut :=
  match f with
  | .nil => out
  | .cons n rest => collectForest (collectNode out n) rest
termination_by structural f
end

/-- The structured result dict of `scrape_profile_with_name`: either
`{'name': ..., 'titles': ...}` or `{'error': ...}`. -/
inductive ScrapeRes where
  | ok (name : String) (titles : List String)
  | err (msg : String)
deriving DecidableEq

/-- The outcome of one page load and evaluation: either the composed
document tree, or a failure (navigation error, timeout, evaluation fault)
whose description is `str(e)` for the raised exception. -/
inductive PageLoad where
  | loaded (doc : DomForest)
  | failed (msg : String)

/-- Lines 97-111 of `batch_from_csv.py`: evaluate the collector JS on the
document and deduplicate the titles keeping first occurrences. -/
def scrape_collect (doc : DomForest) : CollectOut :=
  ⟨(collectForest ⟨"", []⟩ doc).name, dedupFirst (collectForest ⟨"", []⟩ doc).titles⟩

/-- `scrape_profile_with_name` (lines 51-113): the whole body is inside
`try/except Exception`, so every failure becomes `{'error': str(e)}`. -/
def scrape_profile_with_name : PageLoad → ScrapeRes
  | .loaded doc => .ok (scrape_collect doc).name (scrape_collect doc).titles
  | .failed msg => .err msg

/-! ## The collector embedded in `scraper.scrape_playwright`

This earlier variant collects only `span.ql-title-medium` texts; it pushes
`node.innerText.trim()` unconditionally (even when empty) and performs no
deduplication.  The Python wrapper then keeps the non-empty stripped
strings in order. -/

mutual
def collectPwNode (out : List String) (n : DomNode) : List String :=
  match n with
  | .element tagName className innerText shadow children =>
    collectPwForest
      (collectPwShadow
        (if pyLower tagName = "span" ∧ hasClass className "ql-title-medium" then out ++ [strip innerText] else out)
        shadow)
      children
termination_by structural n
def collectPwShadow (out : List String) (sh : ShadowSlot) : List String :=
  match sh with
  | .noShadow => out
  | .shadowRoot content => out ++ collectPwForest [] content
termination_by structural sh
def collectPwForest (out : List String) (f : DomForest) : List String :=
  match f with
  | .nil => out
  | .cons n rest => collectPwForest (collectPwNode out n) rest
termination_by structural f
end

/-- `scrape_playwright` (scraper.py lines 30-76), success path: evaluate
the JS, then keep `v.strip()` for each non-empty string value.  No
deduplication happens here. -/
def scrape_playwright (doc : DomForest) : List String :=
  (collectPwForest [] doc).filterMap
    (fun v => if v ≠ "" then (if strip v ≠ "" then some (strip v) else none) else none)

/-! ## Specification-side view of the collector

Written from the spec's words: the composed tree is flattened in traversal
order (element, then its shadow tree, then its light children); the name is
the first non-empty trimmed text of a heading with the display-name class;
the titles are the trimmed non-empty texts of title-class spans in
traversal order. -/

/-- The observable data of one element. -/
structure ElemInfo where
  tagName : String
  className : String
  innerText : String

mutual
/-- Flatten the composed tree in the collector's traversal order. -/
def flattenNode (n : DomNode) : List ElemInfo :=
  match n with
  | .element tagName className innerText shadow children =>
    ⟨tagName, className, innerText⟩ :: (flattenShadow shadow ++ flattenForest children)
termination_by structural n
def flattenShadow (sh : ShadowSlot) : List ElemInfo :=
  match sh with
  | .noShadow => []
  | .shadowRoot content => flattenForest content
termination_by structural sh
def flattenForest (f : DomForest) : List ElemInfo :=
  match f with
  | .nil => []
  | .cons n rest => flattenNode n ++ flattenForest rest
termination_by structural f
end

/-- A display-name candidate: a heading with the display-name class and a
non-empty trimmed text. -/
def nameCandidate (e : ElemInfo) : Option String :=
  if pyLower e.tagName = "h1" ∧ hasClass e.className "ql-display-small" ∧ strip e.innerText ≠ "" then
    some (strip e.innerText)
  else none

/-- A title candidate: a title-class span with non-empty trimmed text. -/
def titleCandidate (e : ElemInfo) : Option String :=
  if pyLower e.tagName = "span" ∧ hasClass e.className "ql-title-medium" ∧ strip e.innerText ≠ "" then
    some (strip e.innerText)
  else none

/-- Spec-side name: the first non-empty display-name candidate in
traversal order, or the empty string. -/
def specName (doc : DomForest) : String :=
  ((flattenForest doc).filterMap nameCandidate).headD ""

/-- Spec-side raw titles: title candidates in traversal order. -/
def specTitles (doc : DomForest) : List String :=
  (flattenForest doc).filterMap titleCandidate

/-! ## URL extraction, first variant (`batch_from_csv.py` lines 20-48)

The regex is `(https?://[^\s"\'>]+/public_profiles/[^\s"\'>]+)`, used with
`pattern.search(cell)`; the matcher below implements leftmost search with
greedy backtracking.  On a match, `m.group(1).split('?')[0].split('#')[0]`
is added to a set; otherwise a cell containing `/public_profiles/` and
(after stripping) starting with `http` is added after the same truncation.
The set is returned sorted. -/

/-- The double-quote character. -/
def dq : Char := Char.ofNat 34

/-- The single-quote character. -/
def squote : Char := Char.ofNat 39

/-- Character class `[^\s"\'>]` of the first-variant regex. -/
def isB (c : Char) : Bool := !(c.isWhitespace || c == dq || c == squote || c == '>')

/-- The literal segment both regexes require. -/
def ppLit : List Char := "/public_profiles/".toList

/-- Match `/public_profiles/` followed by a greedy non-empty run of the
first variant's character class; returns the matched part and the rest. -/
def v1Suffix (s : List Char) : Option (List Char × List Char) :=
  match dropLit ppLit s with
  | none => none
  | some r =>
    if (r.takeWhile isB).isEmpty then none
    else some (ppLit ++ r.takeWhile isB, r.drop (r.takeWhile isB).length)

/-- Greedy `[^\s"\'>]*` followed by `v1Suffix`, longest star first, with
backtracking on failure of the continuation. -/
def v1Star : List Char → Option (List Char × List Char)
  | [] => v1Suffix []
  | c :: cs =>
    if isB c then
      match v1Star cs with
      | some (m, r) => some (c :: m, r)
      | none => v1Suffix (c :: cs)
    else v1Suffix (c :: cs)

/-- Greedy `[^\s"\'>]+` followed by the suffix: one mandatory class
character, then the starred continuation. -/
def v1AfterScheme : List Char → Option (List Char × List Char)
  | [] => none
  | c :: cs =>
    if isB c then
      match v1Star cs with
      | some (m, r) => some (c :: m, r)
      | none => none
    else none

/-- Match the full first-variant pattern at the start of `s`; `https?` is
greedy, preferring the `s` branch. -/
def v1Match (s : List Char) : Option (List Char × List Char) :=
  match dropLit "http".toList s with
  | none => none
  | some s4 =>
    match (match dropLit "s://".toList s4 with
      | some rest =>
        match v1AfterScheme rest with
        | some (m, r) => some ("https://".toList ++ m, r)
        | none => none
      | none => none) with
    | some p => some p
    | none =>
      match dropLit "://".toList s4 with
      | some rest =>
        match v1AfterScheme rest with
        | some (m, r) => some ("http://".toList ++ m, r)
        | none => none
      | none => none

/-- Python `pattern.search(cell)`: the leftmost match. -/
def v1Search : List Char → Option (List Char)
  | [] => none
  | c :: cs =>
    match v1Match (c :: cs) with
    | some p => some p.1
    | none => v1Search cs

/-- The URL contributed by one CSV cell in the first variant
(lines 29-47): `None` models `continue`/no addition. -/
def cellUrl (cell : String) : Option String :=
  if cell = "" then none
  else
    match v1Search cell.toList with
    | some m => some (splitHead '#' (splitHead '?' (String.mk m)))
    | none =>
      if containsSub ppLit cell.toList then
        (if "http".toList.isPrefixOf (strip cell).toList then
          some (splitHead '#' (splitHead '?' (strip cell)))
        else none)
      else none

/-- `extract_urls_from_csv` (first variant, lines 20-48).  A missing input
file (`not path.exists()`, modelled by `none`) yields the empty list; rows
of cells are scanned in order, contributions are collected into a set and
returned sorted. -/
def extract_urls_from_csv (input : Option (List (List String))) : List String :=
  match input with
  | none => []
  | some rows => sortStrings (dedupFirst (rows.flatten.filterMap cellUrl))

/-! ## URL extraction, second variant (`batch_from_csv.py` lines 179-188)

The file is read as raw text and scanned with
`re.findall(r'https?://[^\"]*/public_profiles/[0-9a-fA-F-]+')`; each match
is truncated at the first `?` only (no `#` truncation) and stripped, then
the set is returned sorted. -/

/-- Character class `[0-9a-fA-F-]` of the second-variant regex. -/
def isHexDash (c : Char) : Bool :=
  c.isDigit || (decide (Char.ofNat 97 ≤ c) && decide (c ≤ Char.ofNat 102))
    || (decide (Char.ofNat 65 ≤ c) && decide (c ≤ Char.ofNat 70)) || c == '-'

/-- Match `/public_profiles/` followed by a greedy non-empty hex-dash run. -/
def v2Suffix (s : List Char) : Option (List Char × List Char) :=
  match dropLit ppLit s with
  | none => none
  | some r =>
    if (r.takeWhile isHexDash).isEmpty then none
    else some (ppLit ++ r.takeWhile isHexDash, r.drop (r.takeWhile isHexDash).length)

/-- Greedy `[^\"]*` followed by `v2Suffix`, longest star first. -/
def v2Star : List Char → Option (List Char × List Char)
  | [] => v2Suffix []
  | c :: cs =>
    if c == dq then v2Suffix (c :: cs)
    else
      match v2Star cs with
      | some (m, r) => some (c :: m, r)
      | none => v2Suffix (c :: cs)

/-- Match the full second-variant pattern at the start of `s`. -/
def v2Match (s : List Char) : Option (List Char × List Char) :=
  match dropLit "http".toList s with
  | none => none
  | some s4 =>
    match (match dropLit "s://".toList s4 with
      | some rest =>
        match v2Star rest with
        | some (m, r) => some ("https://".toList ++ m, r)
        | none => none
      | none => none) with
    | some p => some p
    | none =>
      match dropLit "://".toList s4 with
      | some rest =>
        match v2Star rest with
        | some (m, r) => some ("http://".toList ++ m, r)
        | none => none
      | none => none

/-- Python `re.findall`: non-overlapping leftmost matches, resuming after
each match.  The fuel (the text length suffices) makes the scan total. -/
def v2FindAll : Nat → List Char → List (List Char)
  | 0, _ => []
  | _ + 1, [] => []
  | fuel + 1, c :: cs =>
    match v2Match (c :: cs) with
    | some p => p.1 :: v2FindAll fuel p.2
    | none => v2FindAll fuel cs

/-- `extract_urls_from_csv` (second variant, lines 179-188): findall over
the raw text, `m.split('?')[0].strip()` into a set, returned sorted. -/
def extract_urls_from_csv_v2 (text : String) : List String :=
  sortStrings (dedupFirst ((v2FindAll text.length text.toList).map
    (fun m => strip (splitHead '?' (String.mk m)))))

/-! ## The concurrent batch runner (`batch_from_csv.main`, lines 116-159) -/

/-- One persisted result record, as built in lines 142-153: the Python
dicts are accessed with `.get('url')`, so the key is optional. -/
structure Entry where
  url : Option String
  name : String
  titles : List String
  error : Option String
deriving DecidableEq

/-- The outcome of one submitted future: the scrape returned a structured
dict, or raised (so that `fut.result()` re-raises). -/
inductive FutureOutcome where
  | returned (res : ScrapeRes)
  | raised (msg : String)

/-- Lines 137-140: `res = fut.result()` wrapped in `except Exception`,
converting a raising scrape into `{'error': str(e)}`. -/
def futureResult : FutureOutcome → ScrapeRes
  | .returned r => r
  | .raised m => .err m

/-- Lines 142-151: build the entry for one URL from the scrape result. -/
def entryOfResult (url : String) : ScrapeRes → Entry
  | .ok n t => ⟨some url, n, t, none⟩
  | .err m => ⟨some url, "", [], some m⟩

/-- The result accumulation loop over `as_completed` (lines 133-153):
`order` is the completion order of the futures, a permutation of the
submitted URL list; each future is submitted once per URL. -/
def runBatch (outcome : String → FutureOutcome) (order : List String) : List Entry :=
  order.map (fun url => entryOfResult url (futureResult (outcome url)))

/-- The whole of `main` (lines 116-159) as a function from the CSV input,
the previously persisted store content, the scrape outcomes and the
completion order to the exit status and the final persisted content.  When
no URLs are found the process exits 1 and the file is untouched; otherwise
the batch results are written, replacing the previous content (the
previous store is never read). -/
def mainRunPersist (prev : List Entry) (csv : Option (List (List String)))
    (outcome : String → FutureOutcome) (complete : List String → List String) : Nat × List Entry :=
  if extract_urls_from_csv csv = [] then (1, prev)
  else (0, runBatch outcome (complete (extract_urls_from_csv csv)))

/-- The option strings accepted by the argparse parser of `main`
(lines 118-120): worker count and output path only. -/
def batchCliFlags : List String := ["--workers", "-w", "--out", "-o"]

/-- The argparse default for `--workers` (line 119). -/
def workersDefault : Nat := 5

/-- The argparse default for `--out` (line 120). -/
def outDefault : String := "results_from_gform.json"

/-! ## The single-record update path (`update_single.update_profile`) -/

/-- Lines 28-38 of `update_single.py`: replace the first entry whose
`url` key equals the given URL (then `break`), appending when none
matches. -/
def update_profile : List Entry → String → Entry → List Entry
  | [], _, profile_data => [profile_data]
  | e :: es, url, profile_data =>
    if e.url = some url then profile_data :: es
    else e :: update_profile es url profile_data

/-! ## Concrete inputs used by scenarios, counterexamples and witnesses -/

def badgeSpan : DomNode := .element "span" "ql-title-medium" "Badge A" .noShadow .nil

def janeH1 : DomNode := .element "h1" "ql-display-small" "Jane Doe" .noShadow .nil

/-- A host whose shadow root contains one badge span. -/
def innerHost : DomNode := .element "div" "" "" (.shadowRoot (.cons badgeSpan .nil)) .nil

/-- A host whose shadow root contains a badge span and the inner host:
two nested shadow roots, each containing a `"Badge A"` title span. -/
def outerHost : DomNode :=
  .element "div" "" "" (.shadowRoot (.cons badgeSpan (.cons innerHost .nil))) .nil

/-- The spec's collector scenario document. -/
def janeDoc : DomForest := .cons janeH1 (.cons outerHost .nil)

/-- A document with the same title span twice in the light DOM. -/
def pwCexDoc : DomForest := .cons badgeSpan (.cons badgeSpan .nil)

/-- The spec's extractor scenario input table. -/
def scenarioTable : Option (List (List String)) :=
  some [["noise", "https://skillsboost.example/public_profiles/abc-123?x=1",
         "https://skillsboost.example/public_profiles/abc-123#frag"]]

def scenarioUrl : String := "https://skillsboost.example/public_profiles/abc-123"

/-- The same scenario cells as the raw CSV text read by the second variant. -/
def scenarioText : String :=
  "noise,https://skillsboost.example/public_profiles/abc-123?x=1,https://skillsboost.example/public_profiles/abc-123#frag"

/-- A text whose only match carries a fragment before the profile segment. -/
def fragCexText : String := "https://h/#x/public_profiles/abc"

def oldEntry : Entry := ⟨some "https://old.example/public_profiles/aaa", "Old", ["T1"], none⟩

def cexCsv : Option (List (List String)) := some [["https://h/public_profiles/b"]]

def okOracle : String → FutureOutcome := fun _ => .returned (.ok "New" [])

/-- An oracle whose scrapes raise instead of returning. -/
def raiseOracle : String → FutureOutcome := fun _ => .raised "boom"

/-! ## Helper lemmas about the dedup loop -/

theorem dedupAux_nodup_notin (seen : List String) (l : List String) :
    (dedupAux seen l).Nodup ∧ ∀ x ∈ dedupAux seen l, x ∉ seen := by
  induction l generalizing seen with
  | nil => simp [dedupAux]
  | cons t ts ih =>
    by_cases h : t ∈ seen
    · simpa [dedupAux, h] using ih seen
    · obtain ⟨hnd, hmem⟩ := ih (t :: seen)
      refine ⟨?_, ?_⟩
      · simp only [dedupAux, h, if_false, List.nodup_cons]
        exact ⟨fun hc => (hmem t hc) (List.mem_cons_self t seen), hnd⟩
      · intro x hx
        simp only [dedupAux, h, if_false, List.mem_cons] at hx
        rcases hx with rfl | hx
        · exact h
        · exact fun hs => (hmem x hx) (List.mem_cons_of_mem t hs)

theorem dedupFirst_nodup (l : List String) : (dedupFirst l).Nodup :=
  (dedupAux_nodup_notin [] l).1

theorem dedupAux_sublist (seen : List String) (l : List String) :
    List.Sublist (dedupAux seen l) l := by
  induction l generalizing seen with
  | nil => simp [dedupAux]
  | cons t ts ih =>
    by_cases h : t ∈ seen
    · simpa [dedupAux, h] using (ih seen).cons t
    · simpa [dedupAux, h] using (ih (t :: seen)).cons₂ t

theorem dedupFirst_sublist (l : List String) : List.Sublist (dedupFirst l) l :=
  dedupAux_sublist [] l

theorem mem_dedupAux (x : String) (seen : List String) (l : List String) :
    x ∈ dedupAux seen l ↔ x ∈ l ∧ x ∉ seen := by
  induction l generalizing seen with
  | nil => simp [dedupAux]
  | cons t ts ih =>
    by_cases h : t ∈ seen
    · rw [dedupAux, if_pos h, ih seen]
      constructor
      · rintro ⟨hx, hs⟩; exact ⟨List.mem_cons_of_mem t hx, hs⟩
      · rintro ⟨hx, hs⟩
        rcases List.mem_cons.1 hx with rfl | hx
        · exact absurd h hs
        · exact ⟨hx, hs⟩
    · rw [dedupAux, if_neg h]
      simp only [List.mem_cons, ih (t :: seen)]
      by_cases hxt : x = t
      · subst hxt; simp [h]
      · simp [hxt]

theorem mem_dedupFirst (x : String) (l : List String) :
    x ∈ dedupFirst l ↔ x ∈ l := by
  simp [dedupFirst, mem_dedupAux]

theorem dedupAux_eq_self (seen : List String) (l : List String)
    (hnd : l.Nodup) (hout : ∀ x ∈ l, x ∉ seen) : dedupAux seen l = l := by
  induction l generalizing seen with
  | nil => simp [dedupAux]
  | cons t ts ih =>
    rw [dedupAux, if_neg (hout t (List.mem_cons_self t ts))]
    have hnd' := (List.nodup_cons.1 hnd)
    refine congrArg (t :: ·) (ih (t :: seen) hnd'.2 ?_)
    intro x hx
    simp only [List.mem_cons, not_or]
    exact ⟨fun hxt => hnd'.1 (hxt ▸ hx), hout x (List.mem_cons_of_mem t hx)⟩

theorem dedupFirst_idem (l : List String) :
    dedupFirst (dedupFirst l) = dedupFirst l :=
  dedupAux_eq_self [] (dedupFirst l) (dedupFirst_nodup l) (by simp)

/-! ## Helper lemmas about sorting -/

theorem insertSorted_perm (x : String) (l : List String) :
    (insertSorted x l).Perm (x :: l) := by
  induction l with
  | nil => exact List.Perm.refl _
  | cons y ys ih =>
    rw [insertSorted]
    split
    · exact ((ih.cons y).trans (List.Perm.swap x y ys))
    · exact List.Perm.refl _

theorem sortStrings_perm (l : List String) : (sortStrings l).Perm l := by
  induction l with
  | nil => exact List.Perm.refl _
  | cons a l ih =>
    exact (insertSorted_perm a (sortStrings l)).trans (ih.cons a)

theorem mem_sortStrings (x : String) (l : List String) :
    x ∈ sortStrings l ↔ x ∈ l :=
  (sortStrings_perm l).mem_iff

theorem sortStrings_nodup (l : List String) (h : l.Nodup) :
    (sortStrings l).Nodup :=
  (sortStrings_perm l).nodup_iff.2 h

/-! ## Helper lemmas about `strip` and `splitHead` -/

theorem mem_pyStrip (c : Char) (l : List Char) (h : c ∈ pyStrip l) : c ∈ l := by
  unfold pyStrip at h
  rw [List.mem_reverse] at h
  have h2 := (List.dropWhile_sublist Char.isWhitespace).subset h
  rw [List.mem_reverse] at h2
  exact (List.dropWhile_sublist Char.isWhitespace).subset h2

theorem mem_strip (c : Char) (s : String) (h : c ∈ (strip s).toList) : c ∈ s.toList :=
  mem_pyStrip c s.toList h

theorem sep_notMem_splitHead (sep : Char) (s : String) :
    sep ∉ (splitHead sep s).toList := by
  intro h
  have := List.mem_takeWhile_imp (p := fun c => c != sep) h
  simp at this

theorem mem_splitHead (c : Char) (sep : Char) (s : String)
    (h : c ∈ (splitHead sep s).toList) : c ∈ s.toList :=
  (List.takeWhile_sublist (fun c => c != sep)).subset h

/-! ## Helper lemmas about `update_profile` -/

theorem mem_update_profile_of_ne (S : List Entry) (u : String) (R e : Entry)
    (heS : e ∈ S) (heu : e.url ≠ some u) : e ∈ update_profile S u R := by
  induction S with
  | nil => cases heS
  | cons a as ih =>
    rw [update_profile]
    rcases List.mem_cons.1 heS with rfl | hmem
    · rw [if_neg heu]
      exact List.mem_cons_self e _
    · split
      · exact List.mem_cons_of_mem _ hmem
      · exact List.mem_cons_of_mem _ (ih hmem)

/-- The entry built for a URL always records that URL. -/
theorem entryOfResult_url (url : String) (r : ScrapeRes) :
    (entryOfResult url r).url = some url := by
  cases r <;> rfl

/-! ## Claim C1 -/

/-- C1 counterexample: a batch run over a CSV naming only
`https://h/public_profiles/b` replaces the persisted store wholesale, so
the previously stored entry for `https://old.example/public_profiles/aaa`
(a URL outside the batch) is lost, contradicting the claim that a run
loads, reconciles by URL and writes back the merged set. -/
theorem c1_batch_overwrite_cex :
    (mainRunPersist [oldEntry] cexCsv okOracle id).2 =
      [⟨some "https://h/public_profiles/b", "New", [], none⟩]
    ∧ oldEntry ∉ (mainRunPersist [oldEntry] cexCsv okOracle id).2 := by
  decide

/-- C1 (amended): a batch run never reads the persisted store: when URLs
are found it writes exactly the current batch's entries (so its output and
exit status are independent of the previous store content, and previously
stored entries for URLs outside the batch are lost); merging keyed by URL
happens only on the single-record update path, which does preserve every
entry with a different URL. -/
theorem c1_batch_overwrites (prev prev' : List Entry) (csv : Option (List (List String)))
    (outcome : String → FutureOutcome) (complete : List String → List String)
    (S : List Entry) (u : String) (R e : Entry)
    (hne : extract_urls_from_csv csv ≠ []) (heS : e ∈ S) (heu : e.url ≠ some u) :
    (mainRunPersist prev csv outcome complete).2 =
      runBatch outcome (complete (extract_urls_from_csv csv))
    ∧ (mainRunPersist prev csv outcome complete).2 = (mainRunPersist prev' csv outcome complete).2
    ∧ (mainRunPersist prev csv outcome complete).1 = (mainRunPersist prev' csv outcome complete).1
    ∧ e ∈ update_profile S u R := by
  refine ⟨?_, ?_, ?_, mem_update_profile_of_ne S u R e heS heu⟩ <;>
    simp [mainRunPersist, hne]

/-- C1 witness for the amended theorem. -/
theorem c1_witness :
    (extract_urls_from_csv cexCsv ≠ [] ∧ oldEntry ∈ [oldEntry]
      ∧ oldEntry.url ≠ some "https://h/public_profiles/b")
    ∧ ((mainRunPersist [oldEntry] cexCsv okOracle id).2 =
        runBatch okOracle (id (extract_urls_from_csv cexCsv))
      ∧ (mainRunPersist [oldEntry] cexCsv okOracle id).2 = (mainRunPersist [] cexCsv okOracle id).2
      ∧ (mainRunPersist [oldEntry] cexCsv okOracle id).1 = (mainRunPersist [] cexCsv okOracle id).1
      ∧ oldEntry ∈ update_profile [oldEntry] "https://h/public_profiles/b" oldEntry) :=
  ⟨⟨by decide, by decide, by decide⟩,
    c1_batch_overwrites [oldEntry] [] cexCsv okOracle id [oldEntry]
      "https://h/public_profiles/b" oldEntry oldEntry (by decide) (by decide) (by decide)⟩

/-! ## Claim C5 -/

/-- C5: the scrape boundary converts every page-load failure into a
structured error result; the entry built from it has the failure
description as its error, empty name and empty titles (non-empty whenever
the exception's description is), and the surrounding batch produces the
other URLs' entries unchanged. -/
theorem c5_scrape_error_boundary (msg url : String) (outcome : String → FutureOutcome)
    (us₁ us₂ : List String) (h : msg ≠ "") :
    scrape_profile_with_name (.failed msg) = .err msg
    ∧ entryOfResult url (.err msg) = ⟨some url, "", [], some msg⟩
    ∧ (entryOfResult url (.err msg)).error ≠ none
    ∧ (entryOfResult url (.err msg)).error ≠ some ""
    ∧ runBatch outcome (us₁ ++ url :: us₂) =
        runBatch outcome us₁
          ++ entryOfResult url (futureResult (outcome url)) :: runBatch outcome us₂ := by
  refine ⟨rfl, rfl, by simp [entryOfResult], by simp [entryOfResult, h], ?_⟩
  simp [runBatch]

/-- C5 witness. -/
theorem c5_witness :
    ("timeout 180000ms exceeded" : String) ≠ ""
    ∧ (scrape_profile_with_name (.failed "timeout 180000ms exceeded") = .err "timeout 180000ms exceeded"
      ∧ entryOfResult "u" (.err "timeout 180000ms exceeded") =
          ⟨some "u", "", [], some "timeout 180000ms exceeded"⟩
      ∧ (entryOfResult "u" (.err "timeout 180000ms exceeded")).error ≠ none
      ∧ (entryOfResult "u" (.err "timeout 180000ms exceeded")).error ≠ some ""
      ∧ runBatch okOracle (["a"] ++ "u" :: ["b"]) =
          runBatch okOracle ["a"]
            ++ entryOfResult "u" (futureResult (okOracle "u")) :: runBatch okOracle ["b"]) :=
  ⟨by decide, c5_scrape_error_boundary "timeout 180000ms exceeded" "u" okOracle ["a"] ["b"] (by decide)⟩

/-! ## Claim C6 -/

/-- C6: the batch runner emits exactly one entry per submitted URL, in
completion order; URLs are scheduled once each (distinct input URLs yield
distinct result keys); and a scrape that raises is converted at this layer
into an entry with the failure description as its error. -/
theorem c6_one_result_per_url (outcome : String → FutureOutcome)
    (urls order : List String) (u m : String)
    (hperm : order.Perm urls) (hnd : urls.Nodup) (hraise : outcome u = .raised m) :
    (runBatch outcome order).length = urls.length
    ∧ (runBatch outcome order).map Entry.url = order.map some
    ∧ ((runBatch outcome order).map Entry.url).Nodup
    ∧ entryOfResult u (futureResult (outcome u)) = ⟨some u, "", [], some m⟩ := by
  have hmap : (runBatch outcome order).map Entry.url = order.map some := by
    simp [runBatch, List.map_map, Function.comp_def, entryOfResult_url]
  refine ⟨?_, hmap, ?_, ?_⟩
  · simp [runBatch, hperm.length_eq]
  · rw [hmap]
    exact (hperm.nodup_iff.2 hnd).map (Option.some_injective String)
  · rw [hraise]; rfl

/-- C6 witness. -/
theorem c6_witness :
    (List.Perm ["b", "a"] ["a", "b"] ∧ (["a", "b"] : List String).Nodup
      ∧ raiseOracle "a" = .raised "boom")
    ∧ ((runBatch raiseOracle ["b", "a"]).length = (["a", "b"] : List String).length
      ∧ (runBatch raiseOracle ["b", "a"]).map Entry.url = ["b", "a"].map some
      ∧ ((runBatch raiseOracle ["b", "a"]).map Entry.url).Nodup
      ∧ entryOfResult "a" (futureResult (raiseOracle "a")) = ⟨some "a", "", [], some "boom"⟩) :=
  ⟨⟨by decide, by decide, rfl⟩,
    c6_one_result_per_url raiseOracle ["a", "b"] ["b", "a"] "a" "boom"
      (by decide) (by decide) rfl⟩

/-! ## Claim C7 -/

/-- C7: splicing an incoming result for URL `u` into a store replaces the
first entry keyed by `u` without changing the entry count when `u` is
present, appends when `u` is absent, afterwards `u` looks up to the new
result, and the splice is idempotent. -/
theorem c7_update_merge (S S₁ S₂ : List Entry) (u : String) (R : Entry)
    (hR : R.url = some u) (h1 : ∃ e ∈ S₁, e.url = some u) (h2 : ∀ e ∈ S₂, e.url ≠ some u) :
    (update_profile S₁ u R).length = S₁.length
    ∧ update_profile S₂ u R = S₂ ++ [R]
    ∧ List.find? (fun e => e.url == some u) (update_profile S u R) = some R
    ∧ update_profile (update_profile S u R) u R = update_profile S u R := by
  refine ⟨?_, ?_, ?_, ?_⟩
  · induction S₁ with
    | nil => obtain ⟨e, he, _⟩ := h1; cases he
    | cons a as ih =>
      rw [update_profile]
      split
      · rfl
      · obtain ⟨e, he, heq⟩ := h1
        rcases List.mem_cons.1 he with rfl | hmem
        · exact absurd heq (by assumption)
        · simpa [update_profile] using ih ⟨e, hmem, heq⟩
  · induction S₂ with
    | nil => rfl
    | cons a as ih =>
      rw [update_profile, if_neg (h2 a (List.mem_cons_self a as))]
      rw [ih (fun e he => h2 e (List.mem_cons_of_mem a he))]
      rfl
  · induction S with
    | nil => simp [update_profile, List.find?, hR]
    | cons a as ih =>
      rw [update_profile]
      split
      · simp [List.find?, hR]
      · rename_i hne
        simp only [List.find?]
        have hb : (a.url == some u) = false := by simpa using hne
        rw [hb]
        exact ih
  · induction S with
    | nil => simp [update_profile, hR]
    | cons a as ih =>
      rw [update_profile]
      split
      · simp [update_profile, hR]
      · rename_i hne
        rw [update_profile, if_neg hne, ih]

/-- C7 witness. -/
theorem c7_witness :
    ((⟨some "u1", "B", ["b"], none⟩ : Entry).url = some "u1"
      ∧ (∃ e ∈ [(⟨some "u1", "A", ["a"], none⟩ : Entry)], e.url = some "u1")
      ∧ (∀ e ∈ [oldEntry], e.url ≠ some "u1"))
    ∧ ((update_profile [(⟨some "u1", "A", ["a"], none⟩ : Entry)] "u1" ⟨some "u1", "B", ["b"], none⟩).length
          = [(⟨some "u1", "A", ["a"], none⟩ : Entry)].length
      ∧ update_profile [oldEntry] "u1" ⟨some "u1", "B", ["b"], none⟩ = [oldEntry] ++ [⟨some "u1", "B", ["b"], none⟩]
      ∧ List.find? (fun e => e.url == some "u1")
          (update_profile [(⟨some "u1", "A", ["a"], none⟩ : Entry)] "u1" ⟨some "u1", "B", ["b"], none⟩)
          = some ⟨some "u1", "B", ["b"], none⟩
      ∧ update_profile
          (update_profile [(⟨some "u1", "A", ["a"], none⟩ : Entry)] "u1" ⟨some "u1", "B", ["b"], none⟩)
          "u1" ⟨some "u1", "B", ["b"], none⟩
          = update_profile [(⟨some "u1", "A", ["a"], none⟩ : Entry)] "u1" ⟨some "u1", "B", ["b"], none⟩) :=
  ⟨⟨by decide, by decide, by decide⟩,
    c7_update_merge [(⟨some "u1", "A", ["a"], none⟩ : Entry)] [(⟨some "u1", "A", ["a"], none⟩ : Entry)]
      [oldEntry] "u1" ⟨some "u1", "B", ["b"], none⟩ (by decide) (by decide) (by decide)⟩

/-! ## Claim C8 -/

/-- C8 counterexample: the batch argument parser defines exactly the
worker-count and output-path options; it has no start-offset and no limit
option, so no slice of the URL list can be requested. -/
theorem c8_no_slice_options_cex :
    "--start" ∉ batchCliFlags ∧ "--limit" ∉ batchCliFlags
    ∧ batchCliFlags = ["--workers", "-w", "--out", "-o"] := by
  decide

/-- C8 (amended): the batch command surface supports a worker-count
option (`--workers`/`-w`, default 5) and an output-path option
(`--out`/`-o`, default `results_from_gform.json`) and nothing else; in
particular no start/limit slicing options. -/
theorem c8_cli_surface :
    "--workers" ∈ batchCliFlags ∧ "-w" ∈ batchCliFlags
    ∧ "--out" ∈ batchCliFlags ∧ "-o" ∈ batchCliFlags
    ∧ batchCliFlags.length = 4
    ∧ workersDefault = 5 ∧ outDefault = "results_from_gform.json" := by
  decide

/-! ## Claim C9 -/

/-- C9: a missing input file yields the empty URL list rather than an
error; the exit status is 1 exactly when no URLs are found and 0
otherwise, and it is independent of the scrape outcomes and of the
previously persisted content. -/
theorem c9_exit_status (csv : Option (List (List String)))
    (outcome outcome' : String → FutureOutcome) (complete : List String → List String)
    (prev prev' : List Entry) :
    extract_urls_from_csv none = []
    ∧ (mainRunPersist prev csv outcome complete).1 =
        (if extract_urls_from_csv csv = [] then 1 else 0)
    ∧ (mainRunPersist prev csv outcome complete).1 = (mainRunPersist prev' csv outcome' complete).1 := by
  refine ⟨rfl, ?_, ?_⟩ <;> · unfold mainRunPersist; split <;> rfl

/-! ## Claim C10 -/

/-- C10: the first-variant URL regex matches every character outside
whitespace, double quote, single quote and `>`, so a profile URL followed
by closing punctuation is returned still carrying that punctuation (only
`?`/`#` tails are truncated). -/
theorem c10_trailing_punctuation :
    extract_urls_from_csv (some [["see https://h/public_profiles/abc),"]]) =
      ["https://h/public_profiles/abc),"]
    ∧ "https://h/public_profiles/abc)," = "https://h/public_profiles/abc" ++ "),"
    ∧ isB ')' = true ∧ isB ',' = true ∧ isB ' ' = false
    ∧ isB dq = false ∧ isB squote = false ∧ isB '>' = false := by
  decide

/-! ## The collector refines the traversal-order specification -/

theorem nameStep_titles (out : CollectOut) (t c i : String) :
    (nameStep out t c i).titles = out.titles := by
  unfold nameStep; split <;> rfl

theorem titleStep_name (out : CollectOut) (t c i : String) :
    (titleStep out t c i).name = out.name := by
  unfold titleStep; split <;> rfl

theorem titleStep_titles (out : CollectOut) (t c i : String) :
    (titleStep out t c i).titles = out.titles ++ (titleCandidate ⟨t, c, i⟩).toList := by
  by_cases h : pyLower t = "span" ∧ hasClass c "ql-title-medium" ∧ strip i ≠ "" <;>
    simp [titleStep, titleCandidate, h]

theorem nameStep_name (out : CollectOut) (t c i : String) :
    (nameStep out t c i).name =
      if out.name = "" then (nameCandidate ⟨t, c, i⟩).getD "" else out.name := by
  by_cases h3 : out.name = "" <;>
    by_cases h1 : pyLower t = "h1" <;>
      by_cases h2 : hasClass c "ql-display-small" <;>
        by_cases h4 : strip i = "" <;>
          simp [nameStep, nameCandidate, h1, h2, h3, h4]

theorem nameCandidate_ne (e : ElemInfo) (s : String) (h : nameCandidate e = some s) :
    s ≠ "" := by
  unfold nameCandidate at h
  split_ifs at h with hc
  injection h with h2
  exact h2 ▸ hc.2.2

theorem mem_filterMap_nameCandidate_ne (l : List ElemInfo) (s : String)
    (h : s ∈ l.filterMap nameCandidate) : s ≠ "" := by
  obtain ⟨e, _, he⟩ := List.mem_filterMap.1 h
  exact nameCandidate_ne e s he

mutual
theorem collectForest_titles : ∀ (out : CollectOut) (f : DomForest),
    (collectForest out f).titles = out.titles ++ (flattenForest f).filterMap titleCandidate
  | out, .nil => by simp [collectForest, flattenForest]
  | out, .cons n rest => by
    simp only [collectForest, flattenForest]
    rw [collectForest_titles (collectNode out n) rest, collectNode_titles out n,
      List.filterMap_append, List.append_assoc]
theorem collectNode_titles : ∀ (out : CollectOut) (n : DomNode),
    (collectNode out n).titles = out.titles ++ (flattenNode n).filterMap titleCandidate
  | out, .element t c i sh ch => by
    simp only [collectNode, flattenNode]
    rw [collectForest_titles (collectShadow (titleStep (nameStep out t c i) t c i) sh) ch,
      collectShadow_titles (titleStep (nameStep out t c i) t c i) sh,
      titleStep_titles, nameStep_titles]
    cases hc : titleCandidate ⟨t, c, i⟩ <;>
      simp [hc, List.filterMap_cons, List.filterMap_append, List.append_assoc]
theorem collectShadow_titles : ∀ (out : CollectOut) (sh : ShadowSlot),
    (collectShadow out sh).titles = out.titles ++ (flattenShadow sh).filterMap titleCandidate
  | out, .noShadow => by simp [collectShadow, flattenShadow]
  | out, .shadowRoot content => by
    have h := collectForest_titles ⟨"", []⟩ content
    simp only [collectShadow, flattenShadow, shadowMerge]
    rw [h]
    simp
end

mutual
theorem collectForest_name : ∀ (out : CollectOut) (f : DomForest),
    (collectForest out f).name =
      if out.name = "" then ((flattenForest f).filterMap nameCandidate).headD "" else out.name
  | out, .nil => by
    simp only [collectForest, flattenForest, List.filterMap_nil, List.headD_nil]
    split <;> simp_all
  | out, .cons n rest => by
    simp only [collectForest, flattenForest]
    rw [collectForest_name (collectNode out n) rest, collectNode_name out n,
      List.filterMap_append]
    by_cases h : out.name = ""
    · simp only [h, if_true]
      cases hc : (flattenNode n).filterMap nameCandidate with
      | nil => simp [hc]
      | cons a l =>
        have ha : a ≠ "" := mem_filterMap_nameCandidate_ne (flattenNode n) a
          (by rw [hc]; exact List.mem_cons_self a l)
        simp [hc, ha]
    · simp [h]
theorem collectNode_name : ∀ (out : CollectOut) (n : DomNode),
    (collectNode out n).name =
      if out.name = "" then ((flattenNode n).filterMap nameCandidate).headD "" else out.name
  | out, .element t c i sh ch => by
    simp only [collectNode, flattenNode]
    rw [collectForest_name (collectShadow (titleStep (nameStep out t c i) t c i) sh) ch,
      collectShadow_name (titleStep (nameStep out t c i) t c i) sh,
      titleStep_name, nameStep_name]
    by_cases h : out.name = ""
    · simp only [h, if_true]
      cases hc : nameCandidate ⟨t, c, i⟩ with
      | some a =>
        have ha : a ≠ "" := nameCandidate_ne ⟨t, c, i⟩ a hc
        simp [hc, ha, List.filterMap_cons]
      | none =>
        cases hsh : (flattenShadow sh).filterMap nameCandidate with
        | nil => simp [hc, hsh, List.filterMap_cons, List.filterMap_append]
        | cons b l =>
          have hb : b ≠ "" := mem_filterMap_nameCandidate_ne (flattenShadow sh) b
            (by rw [hsh]; exact List.mem_cons_self b l)
          simp [hc, hsh, hb, List.filterMap_cons, List.filterMap_append]
    · simp [h]
theorem collectShadow_name : ∀ (out : CollectOut) (sh : ShadowSlot),
    (collectShadow out sh).name =
      if out.name = "" then ((flattenShadow sh).filterMap nameCandidate).headD "" else out.name
  | out, .noShadow => by
    simp only [collectShadow, flattenShadow, List.filterMap_nil, List.headD_nil]
    split <;> simp_all
  | out, .shadowRoot content => by
    have h : (collectForest ⟨"", []⟩ content).name =
        ((flattenForest content).filterMap nameCandidate).headD "" := by
      rw [collectForest_name ⟨"", []⟩ content]; simp
    simp only [collectShadow, flattenShadow, shadowMerge]
    rw [h]
    by_cases ho : out.name = "" <;>
      by_cases hh : ((flattenForest content).filterMap nameCandidate).headD "" = "" <;>
        simp_all
end

/-! ## Claim C2 -/

/-- C2: on every document, the collection step of
`scrape_profile_with_name` returns as name the first non-empty trimmed
text of an `h1.ql-display-small` in traversal order (a shadow sub-result's
name being used only when no name is set), and as titles the trimmed
non-empty `span.ql-title-medium` texts in traversal order with duplicates
removed keeping the first occurrence (the deduplicated list is
duplicate-free, a sublist of the raw traversal list, and keeps exactly its
members); in particular the heading/two-nested-shadow-roots scenario
yields `{name: "Jane Doe", titles: ["Badge A"]}`. -/
theorem c2_collector_refinement (doc : DomForest) :
    (scrape_collect doc).name = specName doc
    ∧ (scrape_collect doc).titles = dedupFirst (specTitles doc)
    ∧ (dedupFirst (specTitles doc)).Nodup
    ∧ List.Sublist (dedupFirst (specTitles doc)) (specTitles doc)
    ∧ (∀ x, x ∈ dedupFirst (specTitles doc) ↔ x ∈ specTitles doc)
    ∧ scrape_collect janeDoc = ⟨"Jane Doe", ["Badge A"]⟩ := by
  refine ⟨?_, ?_, dedupFirst_nodup _, dedupFirst_sublist _,
    fun x => mem_dedupFirst x _, by decide⟩
  · show (collectForest ⟨"", []⟩ doc).name = _
    rw [collectForest_name ⟨"", []⟩ doc]
    simp [specName]
  · show dedupFirst (collectForest ⟨"", []⟩ doc).titles = _
    rw [collectForest_titles ⟨"", []⟩ doc]
    simp [specTitles]

/-! ## Claim C3 -/

/-- C3 counterexample: `scrape_playwright` (used directly, without any
deduplication, by the later batch variants to produce the persisted
titles) returns the same title twice for a document containing the same
title span twice, so the titles sequence produced by a scrape can contain
the same string twice. -/
theorem c3_no_dedup_cex :
    scrape_playwright pwCexDoc = ["Badge A", "Badge A"]
    ∧ ¬ (scrape_playwright pwCexDoc).Nodup := by
  decide

/-- C3 (amended): `scrape_profile_with_name` and the scraper CLI pipeline
deduplicate the collector's raw output keeping first-seen order, so their
title sequences never contain the same string twice, and the
deduplication is idempotent; but `scrape_playwright` itself returns the
raw (possibly duplicated) titles, which the second and third batch
variants persist undeduplicated. -/
theorem c3_dedup_variants (pl : PageLoad) (doc : DomForest) (n : String) (t : List String)
    (h : scrape_profile_with_name pl = .ok n t) :
    t.Nodup
    ∧ (dedupFirst (scrape_playwright doc)).Nodup
    ∧ dedupFirst (dedupFirst (scrape_playwright doc)) = dedupFirst (scrape_playwright doc) := by
  refine ⟨?_, dedupFirst_nodup _, dedupFirst_idem _⟩
  cases pl with
  | loaded d =>
    simp only [scrape_profile_with_name, ScrapeRes.ok.injEq] at h
    rw [← h.2]
    exact dedupFirst_nodup _
  | failed m => cases h

/-- C3 witness. -/
theorem c3_witness :
    scrape_profile_with_name (.loaded janeDoc) = .ok "Jane Doe" ["Badge A"]
    ∧ ((["Badge A"] : List String).Nodup
      ∧ (dedupFirst (scrape_playwright pwCexDoc)).Nodup
      ∧ dedupFirst (dedupFirst (scrape_playwright pwCexDoc)) = dedupFirst (scrape_playwright pwCexDoc)) :=
  ⟨by decide, c3_dedup_variants (.loaded janeDoc) pwCexDoc "Jane Doe" ["Badge A"] (by decide)⟩

/-! ## Helper lemmas for the extractor claims -/

theorem cellUrl_shape (cell u : String) (h : cellUrl cell = some u) :
    ∃ x, u = splitHead '#' (splitHead '?' x) := by
  unfold cellUrl at h
  split at h
  · cases h
  · split at h
    · rename_i m _
      injection h with h2
      exact ⟨String.mk m, h2.symm⟩
    · split at h
      · split at h
        · injection h with h2
          exact ⟨strip cell, h2.symm⟩
        · cases h
      · cases h

theorem splitHead2_no_qm (x : String) :
    '?' ∉ (splitHead '#' (splitHead '?' x)).toList := by
  intro hq
  exact sep_notMem_splitHead '?' x (mem_splitHead _ '#' _ hq)

theorem splitHead2_no_hash (x : String) :
    '#' ∉ (splitHead '#' (splitHead '?' x)).toList :=
  sep_notMem_splitHead '#' _

theorem mem_extract_v1 (rows : List (List String)) (u : String)
    (h : u ∈ extract_urls_from_csv (some rows)) : ∃ cell, cellUrl cell = some u := by
  unfold extract_urls_from_csv at h
  rw [mem_sortStrings, mem_dedupFirst] at h
  obtain ⟨cell, _, hc⟩ := List.mem_filterMap.1 h
  exact ⟨cell, hc⟩

theorem cellUrl_no_qm (input : Option (List (List String))) (u : String)
    (h : u ∈ extract_urls_from_csv input) : '?' ∉ u.toList := by
  cases input with
  | none => simp [extract_urls_from_csv] at h
  | some rows =>
    obtain ⟨cell, hc⟩ := mem_extract_v1 rows u h
    obtain ⟨x, rfl⟩ := cellUrl_shape cell u hc
    exact splitHead2_no_qm x

theorem cellUrl_no_hash (input : Option (List (List String))) (u : String)
    (h : u ∈ extract_urls_from_csv input) : '#' ∉ u.toList := by
  cases input with
  | none => simp [extract_urls_from_csv] at h
  | some rows =>
    obtain ⟨cell, hc⟩ := mem_extract_v1 rows u h
    obtain ⟨x, rfl⟩ := cellUrl_shape cell u hc
    exact splitHead2_no_hash x

theorem mem_extract_v2 (text : String) (u : String)
    (h : u ∈ extract_urls_from_csv_v2 text) :
    ∃ m, u = strip (splitHead '?' (String.mk m)) := by
  unfold extract_urls_from_csv_v2 at h
  rw [mem_sortStrings, mem_dedupFirst] at h
  obtain ⟨m, _, hm⟩ := List.mem_map.1 h
  exact ⟨m, hm.symm⟩

theorem v2_no_qm (text : String) (u : String)
    (h : u ∈ extract_urls_from_csv_v2 text) : '?' ∉ u.toList := by
  obtain ⟨m, rfl⟩ := mem_extract_v2 text u h
  intro hq
  exact sep_notMem_splitHead '?' (String.mk m) (mem_strip _ _ hq)

/-! ## Claim C4 -/

/-- C4 counterexample: the second extract variant truncates only at `?`,
so on a text whose match carries `#` before the profile segment it
returns a URL that still contains a fragment separator, contradicting the
claim that every returned URL is truncated at the first `?` or `#`. -/
theorem c4_fragment_kept_cex :
    extract_urls_from_csv_v2 fragCexText = ["https://h/#x/public_profiles/abc"]
    ∧ '#' ∈ "https://h/#x/public_profiles/abc".toList := by
  decide

/-- C4 (amended): both extract variants return duplicate-free URL lists
and URLs with no query string; the first variant also truncates at the
first `#`, but the second variant truncates only at the first `?` and can
return a URL containing `#`; the claim's scenario input yields exactly
`https://skillsboost.example/public_profiles/abc-123` under both
variants. -/
theorem c4_extract_properties (input : Option (List (List String))) (text : String)
    (u₁ u₂ : String)
    (h1 : u₁ ∈ extract_urls_from_csv input) (h2 : u₂ ∈ extract_urls_from_csv_v2 text) :
    (extract_urls_from_csv input).Nodup
    ∧ (extract_urls_from_csv_v2 text).Nodup
    ∧ '?' ∉ u₁.toList ∧ '#' ∉ u₁.toList
    ∧ '?' ∉ u₂.toList
    ∧ extract_urls_from_csv scenarioTable = [scenarioUrl]
    ∧ extract_urls_from_csv_v2 scenarioText = [scenarioUrl] := by
  refine ⟨?_, ?_, ?_, ?_, ?_, by decide, by decide⟩
  · cases input with
    | none => simp [extract_urls_from_csv]
    | some rows => exact sortStrings_nodup _ (dedupFirst_nodup _)
  · exact sortStrings_nodup _ (dedupFirst_nodup _)
  · exact fun hq => cellUrl_no_qm input u₁ h1 hq
  · exact fun hh => cellUrl_no_hash input u₁ h1 hh
  · exact fun hq => v2_no_qm text u₂ h2 hq

/-- C4 witness for the amended theorem. -/
theorem c4_witness :
    (scenarioUrl ∈ extract_urls_from_csv scenarioTable
      ∧ scenarioUrl ∈ extract_urls_from_csv_v2 scenarioText)
    ∧ ((extract_urls_from_csv scenarioTable).Nodup
      ∧ (extract_urls_from_csv_v2 scenarioText).Nodup
      ∧ '?' ∉ scenarioUrl.toList ∧ '#' ∉ scenarioUrl.toList
      ∧ '?' ∉ scenarioUrl.toList
      ∧ extract_urls_from_csv scenarioTable = [scenarioUrl]
      ∧ extract_urls_from_csv_v2 scenarioText = [scenarioUrl]) :=
  ⟨⟨by decide, by decide⟩,
    c4_extract_properties scenarioTable scenarioText scenarioUrl scenarioUrl
      (by decide) (by decide)⟩
